import Mathlib

set_option maxRecDepth 8192

/-! Verification development for the Ode chat-to-agent bridge.

Each definition below is a shallow embedding of a function of the source
repository (file and function named in its doc comment).  Texts are modelled
as `String` or `List Char`, JavaScript numbers holding millisecond timestamps
as `Nat` or `Int`, and duck-typed event payloads as a JSON value type. -/

/-! ## Generic string/list helpers -/

/-- JavaScript `Array.prototype.join(sep)` on a list of strings. -/
def joinSep (sep : String) : List String → String
  | [] => ""
  | [x] => x
  | x :: y :: xs => x ++ sep ++ joinSep sep (y :: xs)

/-- The list `s` occurs contiguously inside `t`. -/
def InfixOf (s t : List Char) : Prop := ∃ l r, t = l ++ s ++ r

theorem InfixOf.trans {a b c : List Char} (h₁ : InfixOf a b) (h₂ : InfixOf b c) :
    InfixOf a c := by
  obtain ⟨l₁, r₁, rfl⟩ := h₁
  obtain ⟨l₂, r₂, rfl⟩ := h₂
  exact ⟨l₂ ++ l₁, r₁ ++ r₂, by simp⟩

theorem InfixOf.refl (a : List Char) : InfixOf a a := ⟨[], [], by simp⟩

/-- Every member of a joined list occurs contiguously in the join. -/
theorem mem_joinSep_occurs (sep : String) (L : List String) (s : String)
    (hs : s ∈ L) : InfixOf s.data (joinSep sep L).data := by
  induction L with
  | nil => cases hs
  | cons x xs ih =>
    cases xs with
    | nil =>
      rcases List.mem_cons.mp hs with h | h
      · exact h ▸ InfixOf.refl x.data
      · cases h
    | cons y ys =>
      rcases List.mem_cons.mp hs with h | h
      · subst h
        refine ⟨[], sep.data ++ (joinSep sep (y :: ys)).data, ?_⟩
        simp [joinSep, String.data_append]
      · obtain ⟨l, r, hl⟩ := ih h
        refine ⟨x.data ++ sep.data ++ l, r, ?_⟩
        simp [joinSep, String.data_append, hl]

/-! ## src/slack/formatter.ts -/

/-- Whitespace characters removed by JavaScript `String.prototype.trimStart`
(restricted to the ASCII whitespace characters). -/
def isJsWhitespace (c : Char) : Bool :=
  c = ' ' || c = '\t' || c = '\n' || c = '\r' || c = Char.ofNat 11 || c = Char.ofNat 12

/-- JavaScript `String.prototype.trimStart` on a list of characters. -/
def jsTrimStart (l : List Char) : List Char := l.dropWhile isJsWhitespace

/-- JavaScript `String.prototype.lastIndexOf(ch, pos)`: the largest index
`i ≤ pos` at which character `ch` occurs in `l`, if any. -/
def lastIndexOfLe (ch : Char) (l : List Char) : Nat → Option Nat
  | 0 => if l[0]? = some ch then some 0 else none
  | p + 1 =>
    if l[p + 1]? = some ch then some (p + 1) else lastIndexOfLe ch l p

/-- The split-index selection of `splitForSlack` (src/slack/formatter.ts,
lines 59-68): last newline at or before `maxLength`, unless missing or in the
first half of the window, then last space likewise, else a hard cut at
`maxLength`.  The JavaScript comparison `splitIndex < maxLength / 2` (real
division) is rendered as `2 * i < maxLength`. -/
def chooseSplitIndex (maxLength : Nat) (remaining : List Char) : Nat :=
  let newlineIdx := lastIndexOfLe '\n' remaining maxLength
  let idx1 :=
    match newlineIdx with
    | some i =>
      if 2 * i < maxLength then lastIndexOfLe ' ' remaining maxLength else some i
    | none => lastIndexOfLe ' ' remaining maxLength
  match idx1 with
  | some i => if 2 * i < maxLength then maxLength else i
  | none => maxLength

/-- The `while` loop of `splitForSlack` (src/slack/formatter.ts, lines 53-72),
with an explicit fuel argument bounding the number of iterations; `fuel ≥
remaining.length` suffices when `0 < maxLength`. -/
def splitGo (maxLength : Nat) : Nat → List Char → List (List Char)
  | 0, _ => []
  | fuel + 1, remaining =>
    if remaining.length = 0 then []
    else if remaining.length ≤ maxLength then [remaining]
    else
      let splitIndex := chooseSplitIndex maxLength remaining
      remaining.take splitIndex ::
        splitGo maxLength fuel (jsTrimStart (remaining.drop splitIndex))

/-- `splitForSlack` from src/slack/formatter.ts (lines 47-75). -/
def splitForSlack (text : List Char) (maxLength : Nat := 3000) : List (List Char) :=
  if text.length ≤ maxLength then [text] else splitGo maxLength text.length text

/-- Interleave chunks with gap strings: `glueChunks [c₁,…,cₙ] [g₁,…,gₙ] =
c₁ ++ g₁ ++ … ++ cₙ ++ gₙ`. -/
def glueChunks : List (List Char) → List (List Char) → List Char
  | [], _ => []
  | _ :: _, [] => []
  | c :: cs, g :: gs => c ++ g ++ glueChunks cs gs

theorem lastIndexOfLe_le {ch : Char} {l : List Char} :
    ∀ {pos i : Nat}, lastIndexOfLe ch l pos = some i → i ≤ pos := by
  intro pos
  induction pos with
  | zero =>
    intro i h
    simp only [lastIndexOfLe] at h
    split at h
    · cases h; exact Nat.le_refl 0
    · cases h
  | succ p ih =>
    intro i h
    simp only [lastIndexOfLe] at h
    split at h
    · cases h; exact Nat.le_refl _
    · exact Nat.le_trans (ih h) (Nat.le_succ p)

theorem chooseSplitIndex_le (maxLength : Nat) (remaining : List Char) :
    chooseSplitIndex maxLength remaining ≤ maxLength := by
  unfold chooseSplitIndex
  cases hn : lastIndexOfLe '\n' remaining maxLength with
  | none =>
    cases hs : lastIndexOfLe ' ' remaining maxLength with
    | none => simp
    | some i =>
      simp only
      split
      · exact Nat.le_refl _
      · exact lastIndexOfLe_le hs
  | some i =>
    by_cases h2 : 2 * i < maxLength
    · simp only [h2, if_true]
      cases hs : lastIndexOfLe ' ' remaining maxLength with
      | none => simp
      | some j =>
        simp only
        split
        · exact Nat.le_refl _
        · exact lastIndexOfLe_le hs
    · simp only [h2, if_false]
      exact lastIndexOfLe_le hn

theorem chooseSplitIndex_pos (maxLength : Nat) (hm : 0 < maxLength)
    (remaining : List Char) : 0 < chooseSplitIndex maxLength remaining := by
  unfold chooseSplitIndex
  cases hn : lastIndexOfLe '\n' remaining maxLength with
  | none =>
    cases hs : lastIndexOfLe ' ' remaining maxLength with
    | none => simpa using hm
    | some i =>
      simp only
      split
      · exact hm
      · omega
  | some i =>
    by_cases h2 : 2 * i < maxLength
    · simp only [h2, if_true]
      cases hs : lastIndexOfLe ' ' remaining maxLength with
      | none => simpa using hm
      | some j =>
        simp only
        split
        · exact hm
        · omega
    · simp only [h2, if_false]
      omega

theorem splitGo_glue (maxLength : Nat) (hm : 0 < maxLength) :
    ∀ fuel remaining, remaining.length ≤ fuel →
      ∃ gaps : List (List Char),
        gaps.length = (splitGo maxLength fuel remaining).length ∧
        (∀ g ∈ gaps, ∀ c ∈ g, isJsWhitespace c = true) ∧
        glueChunks (splitGo maxLength fuel remaining) gaps = remaining ∧
        ∀ ch ∈ splitGo maxLength fuel remaining, ch.length ≤ maxLength := by
  intro fuel
  induction fuel with
  | zero =>
    intro remaining h
    have hr : remaining = [] := List.length_eq_zero.mp (Nat.le_zero.mp h)
    subst hr
    exact ⟨[], by simp [splitGo, glueChunks]⟩
  | succ fuel ih =>
    intro remaining h
    by_cases h0 : remaining.length = 0
    · have hr : remaining = [] := List.length_eq_zero.mp h0
      subst hr
      exact ⟨[], by simp [splitGo, glueChunks]⟩
    · by_cases hle : remaining.length ≤ maxLength
      · have hsplit1 : splitGo maxLength (fuel + 1) remaining = [remaining] := by
          simp only [splitGo, if_neg h0, if_pos hle]
        refine ⟨[[]], ?_, ?_, ?_, ?_⟩
        · simp [hsplit1]
        · intro g hg c hc
          simp only [List.mem_singleton] at hg
          subst hg
          cases hc
        · simp [hsplit1, glueChunks]
        · intro ch hch
          rw [hsplit1] at hch
          simp only [List.mem_singleton] at hch
          subst hch
          exact hle
      · set si := chooseSplitIndex maxLength remaining with hsi
        have hsle : si ≤ maxLength := chooseSplitIndex_le maxLength remaining
        have hspos : 0 < si := chooseSplitIndex_pos maxLength hm remaining
        set rest := remaining.drop si with hrest
        set dropped := rest.takeWhile isJsWhitespace with hdropped
        set rem' := jsTrimStart rest with hrem
        have hsplit : splitGo maxLength (fuel + 1) remaining =
            remaining.take si :: splitGo maxLength fuel rem' := by
          simp only [splitGo, if_neg h0, if_neg hle]
        have hrecount : rem'.length ≤ fuel := by
          have h1 : rem'.length ≤ rest.length := by
            simp only [hrem, jsTrimStart]
            exact (List.dropWhile_sublist isJsWhitespace (l := rest)).length_le
          have h2 : rest.length = remaining.length - si := by
            simp [hrest]
          omega
        obtain ⟨gaps, hglen, hgws, hglue, hbound⟩ := ih rem' hrecount
        refine ⟨dropped :: gaps, ?_, ?_, ?_, ?_⟩
        · simp [hsplit, hglen]
        · intro g hg c hc
          rcases List.mem_cons.mp hg with hgd | hgm
          · subst hgd
            exact List.mem_takeWhile_imp hc
          · exact hgws g hgm c hc
        · rw [hsplit]
          simp only [glueChunks]
          rw [hglue]
          have hwd : dropped ++ rem' = rest := by
            rw [hdropped, hrem, jsTrimStart]
            exact List.takeWhile_append_dropWhile isJsWhitespace rest
          calc remaining.take si ++ dropped ++ rem'
              = remaining.take si ++ (dropped ++ rem') := by simp [List.append_assoc]
            _ = remaining.take si ++ rest := by rw [hwd]
            _ = remaining := by simp [hrest]
        · intro ch hch
          rw [hsplit] at hch
          rcases List.mem_cons.mp hch with hc1 | hc2
          · subst hc1
            calc (remaining.take si).length ≤ si := by
                  simp [List.length_take]
              _ ≤ maxLength := hsle
          · exact hbound ch hc2

theorem splitGo_step (maxLength fuel : Nat) (remaining : List Char)
    (h0 : ¬ remaining.length = 0) (hle : ¬ remaining.length ≤ maxLength) :
    splitGo maxLength (fuel + 1) remaining =
      remaining.take (chooseSplitIndex maxLength remaining) ::
        splitGo maxLength fuel
          (jsTrimStart (remaining.drop (chooseSplitIndex maxLength remaining))) := by
  simp only [splitGo, if_neg h0, if_neg hle]

theorem splitGo_small (maxLength fuel : Nat) (remaining : List Char)
    (h0 : ¬ remaining.length = 0) (hle : remaining.length ≤ maxLength) :
    splitGo maxLength (fuel + 1) remaining = [remaining] := by
  simp only [splitGo, if_neg h0, if_pos hle]

/-- A concrete 3007-character text: 2999 `x`s, then newline, space, newline,
then 5 `y`s.  `splitForSlack` splits it at the newline at index 2999 and then
trims the whole whitespace run `"\n \n"`, losing three characters at a single
split point. -/
def cexText : List Char :=
  List.replicate 2999 'x' ++ '\n' :: ' ' :: '\n' :: List.replicate 5 'y'

theorem cexText_length : cexText.length = 3007 := by
  rw [cexText, List.length_append, List.length_replicate]
  simp only [List.length_cons, List.length_replicate]

theorem cexText_get_3000 : cexText[3000]? = some ' ' := by
  rw [cexText, List.getElem?_append_right (by rw [List.length_replicate]; norm_num),
    List.length_replicate]
  decide

theorem cexText_get_2999 : cexText[2999]? = some '\n' := by
  rw [cexText, List.getElem?_append_right (by rw [List.length_replicate]),
    List.length_replicate]
  decide

theorem cexText_newline_index : lastIndexOfLe '\n' cexText 3000 = some 2999 := by
  have h1 : (3000 : Nat) = 2999 + 1 := by norm_num
  rw [h1, lastIndexOfLe,
    if_neg (by rw [show (2999:Nat)+1 = 3000 from by norm_num, cexText_get_3000]; decide)]
  have h2 : (2999 : Nat) = 2998 + 1 := by norm_num
  rw [h2, lastIndexOfLe,
    if_pos (by rw [show (2998:Nat)+1 = 2999 from by norm_num, cexText_get_2999])]

theorem cexText_splitIndex : chooseSplitIndex 3000 cexText = 2999 := by
  simp only [chooseSplitIndex, cexText_newline_index]
  norm_num

theorem cexText_take : cexText.take 2999 = List.replicate 2999 'x' := by
  rw [cexText]
  exact List.take_left' (List.length_replicate 2999 'x')

theorem cexText_drop : cexText.drop 2999 = '\n' :: ' ' :: '\n' :: List.replicate 5 'y' := by
  rw [cexText]
  exact List.drop_left' (List.length_replicate 2999 'x')

theorem cexText_trim :
    jsTrimStart ('\n' :: ' ' :: '\n' :: List.replicate 5 'y') = List.replicate 5 'y' := by
  decide

theorem cexText_split :
    splitForSlack cexText = [List.replicate 2999 'x', List.replicate 5 'y'] := by
  have h0 : ¬ cexText.length = 0 := by rw [cexText_length]; omega
  have hle : ¬ cexText.length ≤ 3000 := by rw [cexText_length]; omega
  have hsmall0 : ¬ (List.replicate 5 'y').length = 0 := by
    rw [List.length_replicate]; norm_num
  have hsmall : (List.replicate 5 'y').length ≤ 3000 := by
    rw [List.length_replicate]; norm_num
  calc splitForSlack cexText
      = splitGo 3000 cexText.length cexText := by
        rw [splitForSlack, if_neg hle]
    _ = splitGo 3000 (3006 + 1) cexText := by rw [cexText_length]
    _ = cexText.take 2999 ::
          splitGo 3000 3006 (jsTrimStart (cexText.drop 2999)) := by
        rw [splitGo_step 3000 3006 cexText h0 hle, cexText_splitIndex]
    _ = List.replicate 2999 'x' ::
          splitGo 3000 (3005 + 1) (List.replicate 5 'y') := by
        rw [cexText_take, cexText_drop, cexText_trim]
    _ = [List.replicate 2999 'x', List.replicate 5 'y'] := by
        rw [splitGo_small 3000 3005 _ hsmall0 hsmall]

/-- Claim C4, counterexample: on the 3007-character text `cexText` (2999 x
characters, then newline-space-newline, then 5 y characters) `splitForSlack`
produces exactly two chunks but drops three characters at the single split
point, so rejoining the chunks cannot reconstruct the original text modulo
one split-point character per split. -/
theorem splitForSlack_roundtrip_cex :
    3000 < cexText.length ∧
    (splitForSlack cexText).length = 2 ∧
    ((splitForSlack cexText).map List.length).sum + ((splitForSlack cexText).length - 1)
      < cexText.length := by
  refine ⟨by rw [cexText_length]; norm_num, ?_, ?_⟩
  · rw [cexText_split]
    rfl
  · rw [cexText_split, cexText_length]
    simp only [List.map_cons, List.map_nil, List.length_replicate, List.length_cons,
      List.length_nil, List.sum_cons, List.sum_nil]
    norm_num

/-- Claim C4 (amended): for every input text and positive limit,
`splitForSlack` returns chunks each of length at most the limit, and the
original text is reconstructed by interleaving the chunks with the dropped
gaps, where every dropped gap consists only of whitespace characters (the
code trims the whole run of leading whitespace from the remainder after each
split, not just the single split-point character). -/
theorem splitForSlack_whitespace_glue (text : List Char) (maxLength : Nat)
    (hm : 0 < maxLength) :
    ∃ gaps : List (List Char),
      gaps.length = (splitForSlack text maxLength).length ∧
      (∀ g ∈ gaps, ∀ c ∈ g, isJsWhitespace c = true) ∧
      glueChunks (splitForSlack text maxLength) gaps = text ∧
      ∀ ch ∈ splitForSlack text maxLength, ch.length ≤ maxLength := by
  unfold splitForSlack
  by_cases h : text.length ≤ maxLength
  · rw [if_pos h]
    refine ⟨[[]], by simp, ?_, by simp [glueChunks], ?_⟩
    · intro g hg c hc
      simp only [List.mem_singleton] at hg
      subst hg
      cases hc
    · intro ch hch
      simp only [List.mem_singleton] at hch
      subst hch
      exact h
  · rw [if_neg h]
    exact splitGo_glue maxLength hm text.length text (Nat.le_refl _)

/-- Witness for the amended C4 theorem at a concrete input. -/
theorem splitForSlack_whitespace_glue_witness :
    ∃ gaps : List (List Char),
      gaps.length = (splitForSlack ['a', 'b'] 3000).length ∧
      (∀ g ∈ gaps, ∀ c ∈ g, isJsWhitespace c = true) ∧
      glueChunks (splitForSlack ['a', 'b'] 3000) gaps = ['a', 'b'] ∧
      ∀ ch ∈ splitForSlack ['a', 'b'] 3000, ch.length ≤ 3000 :=
  splitForSlack_whitespace_glue ['a', 'b'] 3000 (by norm_num)

/-! ## src/slack/client.ts - per-thread serial queue (lines 806-858) -/

/-- One queued inbound message (src/slack/client.ts, QueuedMessage).  The
message context and Slack client handle do not affect the queue semantics
and are omitted. -/
structure QueuedMessage where
  text : String

/-- src/slack/client.ts, ThreadQueue (lines 812-815). -/
structure ThreadQueue where
  processing : Bool
  items : List QueuedMessage

/-- The enqueue step of enqueueUserMessage (src/slack/client.ts, line 852):
`queue.items.push({ context, text, client })`. -/
def enqueueUserMessage (q : ThreadQueue) (text : String) : ThreadQueue :=
  { q with items := q.items ++ [⟨text⟩] }

/-- One iteration of the drain loop of processThreadQueue (src/slack/client.ts,
lines 828-839): if items are queued, atomically take them all
(`queue.items.splice(0)`), join their texts with newline separators, and run
them as one combined request; if none are queued the loop ends and the
processing flag is lowered.  Returns the new queue state and the combined
prompt of the single executed turn, if any. -/
def processThreadQueueIteration (q : ThreadQueue) : ThreadQueue × Option String :=
  match q.items with
  | [] => ({ q with processing := false }, none)
  | item :: rest =>
    ({ q with items := [] },
      some (joinSep "\n" ((item :: rest).map (fun m => m.text))))

theorem foldl_enqueueUserMessage (msgs : List String) (b : Bool)
    (items : List QueuedMessage) :
    msgs.foldl enqueueUserMessage ⟨b, items⟩ =
      ⟨b, items ++ msgs.map (fun t => ⟨t⟩)⟩ := by
  induction msgs generalizing items with
  | nil => simp
  | cons x xs ih =>
    simp only [List.foldl_cons, enqueueUserMessage, List.map_cons]
    rw [ih]
    simp

theorem map_text_map_mk (xs : List String) :
    List.map (fun m : QueuedMessage => m.text)
      (List.map (fun t => QueuedMessage.mk t) xs) = xs := by
  induction xs with
  | nil => rfl
  | cons y ys ih => simp only [List.map_cons, ih]

/-- Claim C1: all messages enqueued onto a thread queue while a single
drain-loop iteration is pending are executed by the next iteration as
exactly one combined agent turn whose prompt is the message texts joined
with newline separators in arrival order, and no message is dropped (every
text occurs inside the combined prompt). -/
theorem processThreadQueue_coalesces (msgs : List String) (h : msgs ≠ []) :
    processThreadQueueIteration (msgs.foldl enqueueUserMessage ⟨true, []⟩) =
      (⟨true, []⟩, some (joinSep "\n" msgs)) ∧
    ∀ m ∈ msgs, InfixOf m.data (joinSep "\n" msgs).data := by
  constructor
  · rw [foldl_enqueueUserMessage]
    cases msgs with
    | nil => exact absurd rfl h
    | cons x xs =>
      simp only [List.nil_append, List.map_cons, processThreadQueueIteration,
        map_text_map_mk]
  · intro m hm
    exact mem_joinSep_occurs "\n" msgs m hm

/-- Witness for the C1 theorem at a concrete two-message burst. -/
theorem processThreadQueue_coalesces_witness :
    processThreadQueueIteration (["a", "b"].foldl enqueueUserMessage ⟨true, []⟩) =
      (⟨true, []⟩, some (joinSep "\n" ["a", "b"])) ∧
    ∀ m ∈ ["a", "b"], InfixOf m.data (joinSep "\n" ["a", "b"]).data :=
  processThreadQueue_coalesces ["a", "b"] (by decide)

/-! ## Plan/build protocol (src/slack/client.ts lines 684-706, 894-998) -/

/-- Status of a tracked todo (src/storage/sessions.ts). -/
inductive TodoStatus
  | pending
  | in_progress
  | completed
deriving DecidableEq

/-- src/storage/sessions.ts, TrackedTodo. -/
structure TrackedTodo where
  content : String
  status : TodoStatus
deriving DecidableEq

/-- The literal status string persisted for a todo (JavaScript stores the
union literal directly). -/
def todoStatusText : TodoStatus → String
  | .pending => "pending"
  | .in_progress => "in_progress"
  | .completed => "completed"

/-- src/agents/types.ts, OpenCodeMessage. -/
structure OpenCodeMessage where
  text : String
  messageType : String
deriving DecidableEq

/-- responsesContainQuestion from src/slack/client.ts (lines 684-686): some
response text contains a question mark. -/
def responsesContainQuestion (responses : List OpenCodeMessage) : Bool :=
  responses.any (fun response => response.text.data.contains '?')

/-- buildTodoPrompt from src/slack/client.ts (lines 460-464). -/
def buildTodoPrompt (todos : List TrackedTodo) : String :=
  if todos.length = 0 then ""
  else
    joinSep "\n"
      ("Todos:" ::
        todos.map (fun todo =>
          "- [" ++ todoStatusText todo.status ++ "] " ++ todo.content))

/-- buildBuildPrompt from src/slack/client.ts (lines 688-706).  The JavaScript
truthiness test on `planText` holds exactly for a present, non-empty string. -/
def buildBuildPrompt (userMessage : String) (planText : Option String)
    (todos : List TrackedTodo) (hasPlan : Bool) : String :=
  if !hasPlan then userMessage
  else
    let sections : List String :=
      ["Implement the plan below.",
        "User request: " ++ userMessage,
        match planText with
        | some p => if p.length = 0 then "" else "Plan notes:\n" ++ p
        | none => "",
        buildTodoPrompt todos]
    joinSep "\n\n" (sections.filter (fun s => decide (0 < s.length)))

/-- Plan lifecycle status (src/storage/sessions.ts, SessionPlan.status). -/
inductive PlanStatus
  | planning
  | awaiting_input
  | ready
  | building
  | complete
deriving DecidableEq

/-- A prompt submitted to the backend together with the agent name it is run
under. -/
structure IssuedPrompt where
  agent : String
  text : String
deriving DecidableEq

/-- The planning branch of handleUserMessageInternal (src/slack/client.ts,
lines 915-998), viewed from the moment the planner run returns successfully:
`plannerResponses` are the planner's response messages, `planTodos` is
`session.plan.todos` as collected from todo.updated events during planning,
`planText` is `session.plan.text`, and `buildSucceeds` tells whether the
build-phase backend call returns (on failure the catch path leaves the plan
status at building).  Returns the prompts issued (with their agent) and the
final plan status. -/
def planPhase (userMessage : String) (plannerResponses : List OpenCodeMessage)
    (planTodos : List TrackedTodo) (planText : Option String)
    (buildSucceeds : Bool) : List IssuedPrompt × PlanStatus :=
  let hasTodos := 0 < planTodos.length
  let needsInput := responsesContainQuestion plannerResponses
  if !hasTodos || needsInput then
    ([⟨"plan", userMessage⟩], .awaiting_input)
  else
    ([⟨"plan", userMessage⟩,
      ⟨"build", buildBuildPrompt userMessage planText planTodos true⟩],
      if buildSucceeds then .complete else .building)

/-- The planning-trigger test of handleUserMessageInternal
(src/slack/client.ts, lines 894-895): the thread is awaiting input, or the
message text matches `/plan/i`. -/
def containsSeq (pat : List Char) : List Char → Bool
  | [] => decide (pat = [])
  | c :: rest => pat.isPrefixOf (c :: rest) || containsSeq pat rest

def usePlanAgent (awaitingInput : Bool) (text : String) : Bool :=
  awaitingInput || containsSeq "plan".data (text.data.map Char.toLower)

theorem isPrefixOf_exists (pat : List Char) :
    ∀ l, pat.isPrefixOf l = true ↔ ∃ t, l = pat ++ t := by
  induction pat with
  | nil =>
    intro l
    simp [List.isPrefixOf]
  | cons p ps ih =>
    intro l
    cases l with
    | nil =>
      simp [List.isPrefixOf]
    | cons c cs =>
      simp only [List.isPrefixOf, Bool.and_eq_true, beq_iff_eq, ih, List.cons_append,
        List.cons.injEq]
      constructor
      · rintro ⟨rfl, t, rfl⟩
        exact ⟨t, rfl, rfl⟩
      · rintro ⟨t, rfl, rfl⟩
        exact ⟨rfl, t, rfl⟩

theorem containsSeq_iff (pat : List Char) :
    ∀ l, containsSeq pat l = true ↔ InfixOf pat l := by
  intro l
  induction l with
  | nil =>
    simp only [containsSeq, decide_eq_true_eq]
    constructor
    · rintro rfl
      exact ⟨[], [], rfl⟩
    · rintro ⟨a, b, hab⟩
      have := congrArg List.length hab
      simp only [List.length_nil, List.length_append] at this
      have hp : pat.length = 0 := by omega
      exact List.length_eq_zero.mp hp
  | cons c cs ih =>
    simp only [containsSeq, Bool.or_eq_true, isPrefixOf_exists, ih]
    constructor
    · rintro (⟨t, ht⟩ | ⟨a, b, hab⟩)
      · exact ⟨[], t, ht⟩
      · exact ⟨c :: a, b, by simp [hab]⟩
    · rintro ⟨a, b, hab⟩
      cases a with
      | nil =>
        exact Or.inl ⟨b, by simpa using hab⟩
      | cons a₀ as =>
        simp only [List.cons_append, List.cons.injEq] at hab
        exact Or.inr ⟨as, b, hab.2⟩

theorem infixOf_length_le {s t : List Char} (h : InfixOf s t) :
    s.length ≤ t.length := by
  obtain ⟨l, r, rfl⟩ := h
  simp only [List.length_append]
  omega

theorem userMessage_infix_buildPrompt (userMessage : String)
    (planText : Option String) (todos : List TrackedTodo) :
    InfixOf userMessage.data (buildBuildPrompt userMessage planText todos true).data := by
  simp only [buildBuildPrompt, Bool.not_true, Bool.false_eq_true, if_false]
  refine InfixOf.trans
    (⟨"User request: ".data, [], by simp [String.data_append]⟩ :
      InfixOf userMessage.data ("User request: " ++ userMessage).data)
    (mem_joinSep_occurs "\n\n" _ ("User request: " ++ userMessage) ?_)
  refine List.mem_filter.mpr ⟨by simp, ?_⟩
  simp only [decide_eq_true_eq, String.length_append]
  have : 0 < "User request: ".length := by decide
  omega

theorem todoPrompt_line_occurs (todos : List TrackedTodo) (htodos : ¬ todos.length = 0)
    (td : TrackedTodo) (htd : td ∈ todos) :
    InfixOf td.content.data (buildTodoPrompt todos).data := by
  rw [buildTodoPrompt, if_neg htodos]
  refine InfixOf.trans ?_
    (mem_joinSep_occurs "\n" _
      ("- [" ++ todoStatusText td.status ++ "] " ++ td.content) ?_)
  · exact ⟨("- [" ++ todoStatusText td.status ++ "] ").data, [],
      by simp [String.data_append]⟩
  · exact List.mem_cons_of_mem _ (List.mem_map_of_mem _ htd)

theorem buildTodoPrompt_length_pos (todos : List TrackedTodo)
    (htodos : ¬ todos.length = 0) : 0 < (buildTodoPrompt todos).length := by
  rw [buildTodoPrompt, if_neg htodos]
  have h := mem_joinSep_occurs "\n"
    ("Todos:" :: todos.map (fun todo =>
      "- [" ++ todoStatusText todo.status ++ "] " ++ todo.content))
    "Todos:" (List.mem_cons_self _ _)
  have h2 := infixOf_length_le h
  have h3 : "Todos:".data.length = 6 := by decide
  have h4 : ∀ s : String, s.data.length = s.length := fun _ => rfl
  rw [h3, h4] at h2
  omega

theorem todo_infix_buildPrompt (userMessage : String) (planText : Option String)
    (todos : List TrackedTodo) (htodos : ¬ todos.length = 0)
    (td : TrackedTodo) (htd : td ∈ todos) :
    InfixOf td.content.data (buildBuildPrompt userMessage planText todos true).data := by
  simp only [buildBuildPrompt, Bool.not_true, Bool.false_eq_true, if_false]
  refine InfixOf.trans (todoPrompt_line_occurs todos htodos td htd)
    (mem_joinSep_occurs "\n\n" _ (buildTodoPrompt todos) ?_)
  refine List.mem_filter.mpr ⟨by simp, ?_⟩
  simp only [decide_eq_true_eq]
  exact buildTodoPrompt_length_pos todos htodos

/-- Claim C2: when a planning run ends with a non-empty todo list and no
planner response text contains a question mark, exactly one build-phase
prompt is issued, its text contains the original user request and the
content of every todo, and (the build call returning) the plan status is
marked complete. -/
theorem planPhase_build_handoff (userMessage : String)
    (responses : List OpenCodeMessage) (todos : List TrackedTodo)
    (planText : Option String) (htodos : todos ≠ [])
    (hq : responsesContainQuestion responses = false) :
    ((planPhase userMessage responses todos planText true).1.filter
        (fun p => p.agent == "build")).length = 1 ∧
    (planPhase userMessage responses todos planText true).2 = PlanStatus.complete ∧
    ∀ p ∈ (planPhase userMessage responses todos planText true).1,
      p.agent = "build" →
        InfixOf userMessage.data p.text.data ∧
        ∀ td ∈ todos, InfixOf td.content.data p.text.data := by
  have hpos : 0 < todos.length := List.length_pos.mpr htodos
  have hlen0 : ¬ todos.length = 0 := by omega
  have hplan : planPhase userMessage responses todos planText true =
      ([⟨"plan", userMessage⟩,
        ⟨"build", buildBuildPrompt userMessage planText todos true⟩],
        PlanStatus.complete) := by
    simp [planPhase, hq, hpos]
  rw [hplan]
  refine ⟨by simp [List.filter], rfl, ?_⟩
  intro p hp hagent
  rcases List.mem_cons.mp hp with h | h
  · subst h
    simp at hagent
  · rcases List.mem_cons.mp h with h | h
    · subst h
      exact ⟨userMessage_infix_buildPrompt userMessage planText todos,
        fun td htd => todo_infix_buildPrompt userMessage planText todos hlen0 td htd⟩
    · cases h

/-- Witness for the C2 theorem at a concrete planning outcome. -/
theorem planPhase_build_handoff_witness :
    ((planPhase "fix it" [⟨"ok", "assistant"⟩] [⟨"step one", .pending⟩] none true).1.filter
        (fun p => p.agent == "build")).length = 1 ∧
    (planPhase "fix it" [⟨"ok", "assistant"⟩] [⟨"step one", .pending⟩] none true).2 =
      PlanStatus.complete ∧
    ∀ p ∈ (planPhase "fix it" [⟨"ok", "assistant"⟩] [⟨"step one", .pending⟩] none true).1,
      p.agent = "build" →
        InfixOf "fix it".data p.text.data ∧
        ∀ td ∈ [(⟨"step one", .pending⟩ : TrackedTodo)],
          InfixOf td.content.data p.text.data :=
  planPhase_build_handoff "fix it" [⟨"ok", "assistant"⟩] [⟨"step one", .pending⟩] none
    (by decide) (by decide)

/-- Claim C3: a planning run that ends with zero todos, or whose planner
response text contains a question mark, sets the plan status to
awaiting input and issues no build-phase prompt; any later message on an
awaiting-input thread re-enters planning. -/
theorem planPhase_awaiting_input (userMessage : String)
    (responses : List OpenCodeMessage) (todos : List TrackedTodo)
    (planText : Option String) (buildSucceeds : Bool)
    (h : todos = [] ∨ responsesContainQuestion responses = true) :
    planPhase userMessage responses todos planText buildSucceeds =
      ([⟨"plan", userMessage⟩], PlanStatus.awaiting_input) ∧
    (∀ p ∈ (planPhase userMessage responses todos planText buildSucceeds).1,
      ¬ p.agent = "build") ∧
    ∀ text, usePlanAgent true text = true := by
  have hplan : planPhase userMessage responses todos planText buildSucceeds =
      ([⟨"plan", userMessage⟩], PlanStatus.awaiting_input) := by
    rcases h with h | h
    · subst h
      simp [planPhase]
    · simp [planPhase, h]
  refine ⟨hplan, ?_, ?_⟩
  · rw [hplan]
    intro p hp
    rcases List.mem_cons.mp hp with h | h
    · subst h
      simp
    · cases h
  · intro text
    simp [usePlanAgent]

/-- Witness for the C3 theorem at a concrete planning outcome with a
question mark. -/
theorem planPhase_awaiting_input_witness :
    planPhase "go" [⟨"which one?", "assistant"⟩] [⟨"a todo", .pending⟩] none true =
      ([⟨"plan", "go"⟩], PlanStatus.awaiting_input) ∧
    (∀ p ∈ (planPhase "go" [⟨"which one?", "assistant"⟩] [⟨"a todo", .pending⟩] none true).1,
      ¬ p.agent = "build") ∧
    ∀ text, usePlanAgent true text = true :=
  planPhase_awaiting_input "go" [⟨"which one?", "assistant"⟩] [⟨"a todo", .pending⟩]
    none true (Or.inr (by decide))

/-- Claim C10: for a thread that is not awaiting input, the planning phase is
entered exactly when the message text contains the letter sequence "plan"
case-insensitively anywhere, including inside a longer word; otherwise the
message goes directly to the build phase. -/
theorem usePlanAgent_iff_contains_plan (text : String) :
    usePlanAgent false text = true ↔
      InfixOf "plan".data (text.data.map Char.toLower) := by
  simp only [usePlanAgent, Bool.false_or]
  exact containsSeq_iff _ _

/-! ## src/storage/sessions.ts - persisted sessions and active requests -/

/-- Status of a tracked tool invocation (src/storage/sessions.ts). -/
inductive ToolStatus
  | pending
  | running
  | completed
  | error
deriving DecidableEq

/-- src/storage/sessions.ts, TrackedTool. -/
structure TrackedTool where
  id : String
  name : String
  status : ToolStatus
  title : Option String
  output : Option String
  error : Option String
deriving DecidableEq

/-- Lifecycle state of an ActiveRequest (src/storage/sessions.ts). -/
inductive RequestState
  | processing
  | completed
  | failed
deriving DecidableEq

/-- src/storage/sessions.ts, ActiveRequest.  Millisecond timestamps are Nat. -/
structure ActiveRequest where
  sessionId : String
  channelId : String
  threadId : String
  statusMessageTs : String
  prompt : String
  startedAt : Nat
  lastUpdatedAt : Nat
  currentStatus : String
  currentStep : Option String
  currentText : String
  tools : List TrackedTool
  todos : List TrackedTodo
  state : RequestState
  finalResponseTs : Option String
  error : Option String
deriving DecidableEq

/-- src/storage/sessions.ts, SessionPlan. -/
structure SessionPlan where
  status : PlanStatus
  todos : List TrackedTodo
  messageTs : Option String
  text : Option String
deriving DecidableEq

/-- src/storage/sessions.ts, the items of a PendingQuestion. -/
structure QuestionItem where
  question : String
  options : Option (List String)
  multiple : Option Bool
  custom : Option Bool
deriving DecidableEq

/-- src/storage/sessions.ts, PendingQuestion. -/
structure PendingQuestion where
  requestId : String
  sessionId : String
  askedAt : Nat
  questions : List QuestionItem
  messageTs : Option String
deriving DecidableEq

/-- src/storage/sessions.ts, PersistedSession. -/
structure PersistedSession where
  sessionId : String
  channelId : String
  threadId : String
  workingDirectory : String
  threadOwnerUserId : Option String
  createdAt : Nat
  lastActivityAt : Nat
  activeRequest : Option ActiveRequest
  plan : Option SessionPlan
  pendingQuestion : Option PendingQuestion
deriving DecidableEq

/-- getSessionsWithPendingRequests from src/storage/sessions.ts (lines
270-274): the stored sessions whose active request is in state processing. -/
def getSessionsWithPendingRequests (sessions : List PersistedSession) :
    List PersistedSession :=
  sessions.filter (fun s =>
    match s.activeRequest with
    | some request => request.state == RequestState.processing
    | none => false)

/-! ## Startup recovery (src/slack/client.ts lines 1045-1098) -/

/-- What recovery does to one pending request: either it is cleared silently
(stale path), or its status message is edited to the restart notice and then
it is cleared. -/
inductive RecoveryAction
  | clearedSilently
  | editedAndCleared (messageTs : String) (text : String)
deriving DecidableEq

/-- The per-request branch of recoverPendingRequests (src/slack/client.ts,
lines 1057-1077): a request older than 10 minutes is cleared without any
status-message edit; otherwise the status message is edited to the restart
notice and the request is cleared. -/
def recoverRequest (now : Nat) (request : ActiveRequest) : RecoveryAction :=
  if 10 * 60 * 1000 < now - request.startedAt then
    RecoveryAction.clearedSilently
  else
    RecoveryAction.editedAndCleared request.statusMessageTs
      "_Bot restarted - please resend your message_"

/-- recoverPendingRequests (src/slack/client.ts, lines 1045-1079) on the
stored sessions: every session with a processing request has its request
cleared (never resumed), paired with the action taken for it. -/
def recoverPendingRequests (now : Nat) (sessions : List PersistedSession) :
    List (PersistedSession × RecoveryAction) :=
  (getSessionsWithPendingRequests sessions).filterMap (fun s =>
    match s.activeRequest with
    | some request =>
      some ({ s with activeRequest := none }, recoverRequest now request)
    | none => none)

/-- Claim C7: on recovery, a session whose processing request is older than
10 minutes is cleared without a status-message edit, one at most 10 minutes
old gets its status message edited to the restart notice and is cleared, and
in both cases the recovered session carries no active request (nothing is
resumed). -/
theorem recoverPendingRequests_staleness (now : Nat) (session : PersistedSession)
    (request : ActiveRequest) (hreq : session.activeRequest = some request)
    (hstate : request.state = RequestState.processing) :
    recoverPendingRequests now [session] =
      [({ session with activeRequest := none }, recoverRequest now request)] ∧
    (10 * 60 * 1000 < now - request.startedAt →
      recoverRequest now request = RecoveryAction.clearedSilently) ∧
    (now - request.startedAt ≤ 10 * 60 * 1000 →
      recoverRequest now request =
        RecoveryAction.editedAndCleared request.statusMessageTs
          "_Bot restarted - please resend your message_") := by
  refine ⟨?_, ?_, ?_⟩
  · simp [recoverPendingRequests, getSessionsWithPendingRequests, hreq, hstate,
      List.filter, List.filterMap]
  · intro h
    simp [recoverRequest, h]
  · intro h
    have h2 : ¬ 10 * 60 * 1000 < now - request.startedAt := by omega
    simp [recoverRequest, h2]

/-- A concrete processing request used by the witnesses. -/
def request0 : ActiveRequest :=
  { sessionId := "sess-1"
    channelId := "C1"
    threadId := "T1"
    statusMessageTs := "171.001"
    prompt := "do the thing"
    startedAt := 1000
    lastUpdatedAt := 1000
    currentStatus := "Starting"
    currentStep := none
    currentText := ""
    tools := []
    todos := []
    state := RequestState.processing
    finalResponseTs := none
    error := none }

/-- A concrete stored session holding `request0`. -/
def session0 : PersistedSession :=
  { sessionId := "sess-1"
    channelId := "C1"
    threadId := "T1"
    workingDirectory := "/work"
    threadOwnerUserId := none
    createdAt := 1000
    lastActivityAt := 1000
    activeRequest := some request0
    plan := none
    pendingQuestion := none }

/-- Witness for the C7 theorem at a concrete session. -/
theorem recoverPendingRequests_staleness_witness :
    recoverPendingRequests 2000 [session0] =
      [({ session0 with activeRequest := none }, recoverRequest 2000 request0)] ∧
    (10 * 60 * 1000 < 2000 - request0.startedAt →
      recoverRequest 2000 request0 = RecoveryAction.clearedSilently) ∧
    (2000 - request0.startedAt ≤ 10 * 60 * 1000 →
      recoverRequest 2000 request0 =
        RecoveryAction.editedAndCleared request0.statusMessageTs
          "_Bot restarted - please resend your message_") :=
  recoverPendingRequests_staleness 2000 session0 request0 rfl rfl

/-! ## Stop command (src/slack/client.ts lines 1101-1130, 1276-1293) -/

/-- Side effects of handleStopCommand: how many backend aborts were
triggered and which status messages were deleted. -/
structure StopEffects where
  abortCalls : Nat
  deletedMessageTs : List String
deriving DecidableEq

/-- The request mutation performed by handleStopCommand (lines 1122-1123 and
failActiveRequest): state failed, error "Stopped by user". -/
def stoppedRequest (request : ActiveRequest) : ActiveRequest :=
  { request with
    state := RequestState.failed
    error := some "Stopped by user" }

/-- handleStopCommand from src/slack/client.ts (lines 1101-1130): when the
thread's session holds a processing active request, the backend session is
aborted (best effort, once), the request is marked failed with error
"Stopped by user", its status message is deleted, and true is returned;
otherwise nothing changes and false is returned.  Returns the effects, the
session after the call, and the boolean result. -/
def handleStopCommand (session : Option PersistedSession) :
    StopEffects × Option PersistedSession × Bool :=
  match session with
  | none => (⟨0, []⟩, none, false)
  | some s =>
    match s.activeRequest with
    | none => (⟨0, []⟩, some s, false)
    | some request =>
      if request.state = RequestState.processing then
        (⟨1, [request.statusMessageTs]⟩,
          some { s with activeRequest := some (stoppedRequest request) }, true)
      else (⟨0, []⟩, some s, false)

/-- JavaScript word character class backslash-w, i.e. [A-Za-z0-9_]. -/
def isWordChar (c : Char) : Bool :=
  ('a' ≤ c && c ≤ 'z') || ('A' ≤ c && c ≤ 'Z') || ('0' ≤ c && c ≤ '9') || c = '_'

/-- The word "stop" (case-insensitively) starts at the head of `l` and is
followed by a word boundary. -/
def stopAtHead (l : List Char) : Bool :=
  match l with
  | s :: t :: o :: p :: rest =>
    s.toLower = 's' && t.toLower = 't' && o.toLower = 'o' && p.toLower = 'p' &&
      (match rest with
        | [] => true
        | c :: _ => !isWordChar c)
  | _ => false

def containsStopWordGo (prevIsWord : Bool) : List Char → Bool
  | [] => false
  | c :: rest =>
    (!prevIsWord && stopAtHead (c :: rest)) || containsStopWordGo (isWordChar c) rest

/-- The stop test of setupMessageHandlers (src/slack/client.ts, line 1278):
the regex word-match backslash-b stop backslash-b, case-insensitive. -/
def containsStopWord (text : String) : Bool :=
  containsStopWordGo false text.data

def isUpperOrDigit (c : Char) : Bool :=
  ('A' ≤ c && c ≤ 'Z') || ('0' ≤ c && c ≤ '9')

/-- A Slack user mention of the shape <@U...> starts at the head of `l`
(the regex <@U[A-Z0-9]+> of src/slack/client.ts line 1296). -/
def userMentionAtHead (l : List Char) : Bool :=
  match l with
  | '<' :: '@' :: 'U' :: rest =>
    let run := rest.takeWhile isUpperOrDigit
    !run.isEmpty &&
      (match rest.drop run.length with
        | '>' :: _ => true
        | _ => false)
  | _ => false

def hasUserMention (text : String) : Bool :=
  text.data.tails.any userMentionAtHead

/-- What the inbound-message handler decides to do with a message. -/
inductive InboundOutcome
  | stopped
  | ignored
  | processed
deriving DecidableEq

/-- The mention/thread-active gating of the message handler
(src/slack/client.ts, lines 1290-1297): a message neither mentioning the bot
nor in an active thread is ignored, as is one mentioning only other users;
the rest proceed to normal processing. -/
def handleInboundMessageGated (text : String) (botUserId : String)
    (threadActive : Bool) (session : Option PersistedSession) :
    InboundOutcome × StopEffects × Option PersistedSession :=
  let isMention := containsSeq ("<@" ++ botUserId ++ ">").data text.data
  if !isMention && !threadActive then (InboundOutcome.ignored, ⟨0, []⟩, session)
  else if hasUserMention text && !isMention then
    (InboundOutcome.ignored, ⟨0, []⟩, session)
  else (InboundOutcome.processed, ⟨0, []⟩, session)

/-- The control flow of the message handler in setupMessageHandlers
(src/slack/client.ts, lines 1276-1325) from the stop check onwards, for a
message that already passed the subtype/authorized-channel/self filters: the
stop keyword is checked (and, when a processing request exists, acted on)
before the mention/thread-active gating.  Returns the decision, the stop
effects, and the session after the handler. -/
def handleInboundMessage (text : String) (botUserId : String)
    (threadActive : Bool) (session : Option PersistedSession) :
    InboundOutcome × StopEffects × Option PersistedSession :=
  if containsStopWord text then
    let stopResult := handleStopCommand session
    if stopResult.2.2 then (InboundOutcome.stopped, stopResult.1, stopResult.2.1)
    else handleInboundMessageGated text botUserId threadActive session
  else handleInboundMessageGated text botUserId threadActive session

/-- Claim C8: stopping a thread with a processing active request aborts the
backend exactly once, marks the request failed with error "Stopped by user",
deletes its status message and reports success; a stop on a thread with no
processing request changes nothing; and the stop keyword check short-circuits
the handler before the mention/thread-active gating (the message is stopped
even with no mention and an inactive thread). -/
theorem handleStopCommand_spec :
    (∀ (s : PersistedSession) (request : ActiveRequest),
      s.activeRequest = some request → request.state = RequestState.processing →
      handleStopCommand (some s) =
        (⟨1, [request.statusMessageTs]⟩,
          some { s with activeRequest := some (stoppedRequest request) }, true)) ∧
    (∀ session : Option PersistedSession,
      (∀ s request, session = some s → s.activeRequest = some request →
        ¬ request.state = RequestState.processing) →
      handleStopCommand session = (⟨0, []⟩, session, false)) ∧
    (∀ (text botUserId : String) (threadActive : Bool) (s : PersistedSession)
      (request : ActiveRequest),
      containsStopWord text = true → s.activeRequest = some request →
      request.state = RequestState.processing →
      (handleInboundMessage text botUserId threadActive (some s)).1 =
        InboundOutcome.stopped) := by
  have hstop : ∀ (s : PersistedSession) (request : ActiveRequest),
      s.activeRequest = some request → request.state = RequestState.processing →
      handleStopCommand (some s) =
        (⟨1, [request.statusMessageTs]⟩,
          some { s with activeRequest := some (stoppedRequest request) }, true) := by
    intro s request hreq hstate
    simp [handleStopCommand, hreq, hstate]
  refine ⟨hstop, ?_, ?_⟩
  · intro session h
    match session with
    | none => rfl
    | some s =>
      cases hreq : s.activeRequest with
      | none => simp [handleStopCommand, hreq]
      | some request =>
        have hns := h s request rfl hreq
        simp [handleStopCommand, hreq, hns]
  · intro text botUserId threadActive s request hstopword hreq hstate
    rw [handleInboundMessage, if_pos hstopword]
    simp only [hstop s request hreq hstate]
    simp

/-- Witness for the C8 theorem: a stop message on an inactive thread with no
mention still stops the processing request, and a stop with no active
request changes nothing. -/
theorem handleStopCommand_spec_witness :
    handleStopCommand (some session0) =
      (⟨1, [request0.statusMessageTs]⟩,
        some { session0 with activeRequest := some (stoppedRequest request0) }, true) ∧
    handleStopCommand none = (⟨0, []⟩, none, false) ∧
    (handleInboundMessage "please STOP now" "UBOT" false (some session0)).1 =
      InboundOutcome.stopped :=
  ⟨handleStopCommand_spec.1 session0 request0 rfl rfl,
    handleStopCommand_spec.2.1 none (fun _ _ h _ => by cases h),
    handleStopCommand_spec.2.2 "please STOP now" "UBOT" false session0 request0
      (by decide) rfl rfl⟩

/-! ## src/agents/opencode - session manager (client.ts lines 106-137,
server.ts lines 10-24, 213-253) -/

/-- A process-environment override set (server.ts, SessionEnvironment =
Record<string, string>), as an association list with distinct keys. -/
def SessionEnvironment := List (String × String)
deriving DecidableEq

def insertSorted (x : String) : List String → List String
  | [] => [x]
  | y :: ys => if x < y then x :: y :: ys else y :: insertSorted x ys

/-- JavaScript `Object.keys(env).sort()`: lexicographic insertion sort. -/
def sortStrings (l : List String) : List String :=
  l.foldr insertSorted []

/-- JavaScript `env[key]` for a key of the object. -/
def lookupEnvValue (env : SessionEnvironment) (key : String) : String :=
  (((env : List (String × String)).find? (fun p => p.1 == key)).map
    (fun p => p.2)).getD ""

/-- normalizeSessionEnvironment from src/agents/opencode/client.ts (lines
106-112): join the sorted key=value pairs with newlines; an absent
environment normalizes to the empty string. -/
def normalizeSessionEnvironment (env : Option SessionEnvironment) : String :=
  match env with
  | none => ""
  | some e =>
    joinSep "\n"
      ((sortStrings ((e : List (String × String)).map (fun p => p.1))).map
        (fun key => key ++ "=" ++ lookupEnvValue e key))

/-- The stored state consulted by getOrCreateSession: the
settings thread-to-session map (src/storage/settings.ts,
getOpenCodeSession/setOpenCodeSession) and the per-session environment
registry (server.ts, sessionEnvironments, filled by register). -/
structure SessionStore where
  threadSessions : List ((String × String) × String)
  sessionEnvironments : List (String × SessionEnvironment)

/-- getOpenCodeSession(channelId, threadId) from the settings store. -/
def getOpenCodeSession (store : SessionStore) (channelId threadId : String) :
    Option String :=
  (store.threadSessions.find? (fun e => e.1 == (channelId, threadId))).map
    (fun e => e.2)

/-- setOpenCodeSession(channelId, threadId, sessionId). -/
def setOpenCodeSession (store : SessionStore) (channelId threadId sessionId : String) :
    SessionStore :=
  { store with threadSessions :=
      ((channelId, threadId), sessionId) ::
        store.threadSessions.filter (fun e => !(e.1 == (channelId, threadId))) }

/-- getSessionEnvironment(sessionId) from server.ts (lines 251-253). -/
def getSessionEnvironment (store : SessionStore) (sessionId : String) :
    Option SessionEnvironment :=
  (store.sessionEnvironments.find? (fun e => e.1 == sessionId)).map (fun e => e.2)

/-- The registration performed by createSession via register (server.ts,
lines 223-236): record the new session's environment. -/
def registerSessionEnvironment (store : SessionStore) (sessionId : String)
    (env : SessionEnvironment) : SessionStore :=
  { store with sessionEnvironments :=
      (sessionId, env) ::
        store.sessionEnvironments.filter (fun e => !(e.1 == sessionId)) }

/-- getOrCreateSession from src/agents/opencode/client.ts (lines 114-137).
The backend call of createSession is abstracted by the fresh session id it
returns; `workingPath` only reaches the backend and does not affect the
stored state.  Returns ((sessionId, created), store after the call). -/
def getOrCreateSession (store : SessionStore)
    (channelId threadId _workingPath : String) (env : SessionEnvironment)
    (freshSessionId : String) : (String × Bool) × SessionStore :=
  match getOpenCodeSession store channelId threadId with
  | some existingSession =>
    let existingEnv :=
      normalizeSessionEnvironment (getSessionEnvironment store existingSession)
    let desiredEnv := normalizeSessionEnvironment (some env)
    if existingEnv ≠ desiredEnv then
      let store1 := registerSessionEnvironment store freshSessionId env
      ((freshSessionId, true),
        setOpenCodeSession store1 channelId threadId freshSessionId)
    else ((existingSession, false), store)
  | none =>
    let store1 := registerSessionEnvironment store freshSessionId env
    ((freshSessionId, true),
      setOpenCodeSession store1 channelId threadId freshSessionId)

theorem getOpenCodeSession_set (store : SessionStore)
    (channelId threadId sessionId : String) :
    getOpenCodeSession (setOpenCodeSession store channelId threadId sessionId)
      channelId threadId = some sessionId := by
  simp [getOpenCodeSession, setOpenCodeSession, List.find?]

theorem getSessionEnvironment_set (store : SessionStore)
    (channelId threadId sessionId sid : String) :
    getSessionEnvironment (setOpenCodeSession store channelId threadId sessionId)
      sid = getSessionEnvironment store sid := rfl

theorem getSessionEnvironment_register (store : SessionStore)
    (sessionId : String) (env : SessionEnvironment) :
    getSessionEnvironment (registerSessionEnvironment store sessionId env)
      sessionId = some env := by
  simp [getSessionEnvironment, registerSessionEnvironment, List.find?]

/-- Claim C9: getOrCreateSession returns the stored backend session with
created=false exactly when a stored mapping exists for the thread and the
recorded environment fingerprint (the sorted key=value join) equals the
fingerprint of the requested environment; otherwise it creates a fresh
backend session, stores the new mapping with its environment, and returns
created=true. -/
theorem getOrCreateSession_spec (store : SessionStore)
    (channelId threadId workingPath : String) (env : SessionEnvironment)
    (freshSessionId : String) :
    (((getOrCreateSession store channelId threadId workingPath env
        freshSessionId).1.2 = false) ↔
      (∃ sid, getOpenCodeSession store channelId threadId = some sid ∧
        normalizeSessionEnvironment (getSessionEnvironment store sid) =
          normalizeSessionEnvironment (some env))) ∧
    ((getOrCreateSession store channelId threadId workingPath env
        freshSessionId).1.2 = false →
      (getOrCreateSession store channelId threadId workingPath env
        freshSessionId).2 = store ∧
      getOpenCodeSession store channelId threadId =
        some (getOrCreateSession store channelId threadId workingPath env
          freshSessionId).1.1) ∧
    ((getOrCreateSession store channelId threadId workingPath env
        freshSessionId).1.2 = true →
      (getOrCreateSession store channelId threadId workingPath env
        freshSessionId).1.1 = freshSessionId ∧
      getOpenCodeSession (getOrCreateSession store channelId threadId workingPath
        env freshSessionId).2 channelId threadId = some freshSessionId ∧
      getSessionEnvironment (getOrCreateSession store channelId threadId
        workingPath env freshSessionId).2 freshSessionId = some env) := by
  cases hms : getOpenCodeSession store channelId threadId with
  | none =>
    refine ⟨?_, ?_, ?_⟩
    · simp [getOrCreateSession, hms]
    · simp [getOrCreateSession, hms]
    · intro _
      refine ⟨by simp [getOrCreateSession, hms], ?_, ?_⟩
      · simp [getOrCreateSession, hms, getOpenCodeSession_set]
      · simp [getOrCreateSession, hms, getSessionEnvironment_set,
          getSessionEnvironment_register]
  | some sid =>
    by_cases heq : normalizeSessionEnvironment (getSessionEnvironment store sid) =
        normalizeSessionEnvironment (some env)
    · have hgo : getOrCreateSession store channelId threadId workingPath env
          freshSessionId = ((sid, false), store) := by
        simp [getOrCreateSession, hms, heq]
      rw [hgo]
      refine ⟨iff_of_true rfl ⟨sid, rfl, heq⟩, fun _ => ⟨rfl, rfl⟩, ?_⟩
      intro htrue
      cases htrue
    · have hgo : getOrCreateSession store channelId threadId workingPath env
          freshSessionId =
            ((freshSessionId, true),
              setOpenCodeSession (registerSessionEnvironment store freshSessionId env)
                channelId threadId freshSessionId) := by
        simp [getOrCreateSession, hms, heq]
      rw [hgo]
      refine ⟨?_, ?_, ?_⟩
      · constructor
        · intro h
          cases h
        · rintro ⟨sid2, hsid2, hfp⟩
          have hss : sid = sid2 := Option.some.inj hsid2
          subst hss
          exact absurd hfp heq
      · intro hfalse
        cases hfalse
      · intro _
        refine ⟨rfl, getOpenCodeSession_set _ _ _ _, ?_⟩
        rw [getSessionEnvironment_set]
        exact getSessionEnvironment_register _ _ _

/-- Witness for the C9 theorem at a concrete store and environment. -/
theorem getOrCreateSession_spec_witness :
    (((getOrCreateSession ⟨[], []⟩ "C1" "T1" "/work" [("GIT_AUTHOR_NAME", "ann")]
        "sess-9").1.2 = false) ↔
      (∃ sid, getOpenCodeSession ⟨[], []⟩ "C1" "T1" = some sid ∧
        normalizeSessionEnvironment (getSessionEnvironment ⟨[], []⟩ sid) =
          normalizeSessionEnvironment (some [("GIT_AUTHOR_NAME", "ann")]))) ∧
    (((getOrCreateSession ⟨[], []⟩ "C1" "T1" "/work" [("GIT_AUTHOR_NAME", "ann")]
        "sess-9").1.2 = false) →
      (getOrCreateSession ⟨[], []⟩ "C1" "T1" "/work" [("GIT_AUTHOR_NAME", "ann")]
        "sess-9").2 = ⟨[], []⟩ ∧
      getOpenCodeSession ⟨[], []⟩ "C1" "T1" =
        some (getOrCreateSession ⟨[], []⟩ "C1" "T1" "/work"
          [("GIT_AUTHOR_NAME", "ann")] "sess-9").1.1) ∧
    (((getOrCreateSession ⟨[], []⟩ "C1" "T1" "/work" [("GIT_AUTHOR_NAME", "ann")]
        "sess-9").1.2 = true) →
      (getOrCreateSession ⟨[], []⟩ "C1" "T1" "/work" [("GIT_AUTHOR_NAME", "ann")]
        "sess-9").1.1 = "sess-9" ∧
      getOpenCodeSession (getOrCreateSession ⟨[], []⟩ "C1" "T1" "/work"
        [("GIT_AUTHOR_NAME", "ann")] "sess-9").2 "C1" "T1" = some "sess-9" ∧
      getSessionEnvironment (getOrCreateSession ⟨[], []⟩ "C1" "T1" "/work"
        [("GIT_AUTHOR_NAME", "ann")] "sess-9").2 "sess-9" =
          some [("GIT_AUTHOR_NAME", "ann")]) :=
  getOrCreateSession_spec ⟨[], []⟩ "C1" "T1" "/work" [("GIT_AUTHOR_NAME", "ann")]
    "sess-9"

/-! ## Status update throttling (src/slack/client.ts lines 68-78, 204-239) -/

def UPDATE_THROTTLE_MS : Nat := 500

/-- The throttling state of src/slack/client.ts (lines 69-77): the per-key
last-update clock, the per-key pending flags, and the global update queue.
A key is the string channelId:messageTs; a queue entry keeps the key, the
time it was queued, and its text. -/
structure ThrottleState where
  lastUpdateTime : List (String × Nat)
  pendingUpdates : List String
  globalUpdateQueue : List (String × Nat × String)

/-- `lastUpdateTime.get(key) || 0`. -/
def mapGetD (m : List (String × Nat)) (key : String) : Nat :=
  ((m.find? (fun p => p.1 == key)).map (fun p => p.2)).getD 0

/-- `lastUpdateTime.set(key, v)`. -/
def mapSet (m : List (String × Nat)) (key : String) (v : Nat) :
    List (String × Nat) :=
  (key, v) :: m.filter (fun p => !(p.1 == key))

/-- `pendingUpdates.set(key, true)`. -/
def setInsert (s : List String) (key : String) : List String :=
  if s.contains key then s else key :: s

/-- `pendingUpdates.delete(key)`. -/
def setErase (s : List String) (key : String) : List String :=
  s.filter (fun x => !(x == key))

/-- updateMessageThrottled from src/slack/client.ts (lines 204-239) at clock
reading `now`: a call within 500ms of the previous update of the same key
only records the pending flag; otherwise the last-update clock is set, the
pending flag cleared, every queued update for the same key is removed (its
waiter resolved), and the new update is queued at the tail. -/
def updateMessageThrottled (st : ThrottleState) (key : String) (now : Nat)
    (text : String) : ThrottleState :=
  let lastUpdate := mapGetD st.lastUpdateTime key
  if now - lastUpdate < UPDATE_THROTTLE_MS then
    { st with pendingUpdates := setInsert st.pendingUpdates key }
  else
    { lastUpdateTime := mapSet st.lastUpdateTime key now
      pendingUpdates := setErase st.pendingUpdates key
      globalUpdateQueue :=
        st.globalUpdateQueue.filter (fun e => !(e.1 == key)) ++ [(key, now, text)] }

/-- The module-initial throttling state. -/
def initialThrottleState : ThrottleState := ⟨[], [], []⟩

/-- Run a sequence of timed status-update calls for one message key through
updateMessageThrottled, counting how many of them were actually queued (each
queued entry is what later becomes one chat.update edit; dropped calls only
set the pending flag). -/
def throttleTraceKey (key : String) (st : ThrottleState) :
    List (Nat × String) → ThrottleState × Nat
  | [] => (st, 0)
  | (t, text) :: rest =>
    let queued := !(t - mapGetD st.lastUpdateTime key < UPDATE_THROTTLE_MS)
    let r := throttleTraceKey key (updateMessageThrottled st key t text) rest
    (r.1, (if queued then 1 else 0) + r.2)

theorem mapGetD_set_self (m : List (String × Nat)) (key : String) (v : Nat) :
    mapGetD (mapSet m key v) key = v := by
  simp [mapGetD, mapSet, List.find?]

theorem filter_key_of_filter_not (q : List (String × Nat × String)) (key : String) :
    (q.filter (fun e => !(e.1 == key))).filter (fun e => e.1 == key) = [] := by
  induction q with
  | nil => rfl
  | cons e rest ih =>
    by_cases h : e.1 = key
    · simp [List.filter, h, ih]
    · simp only [List.filter]
      rw [show ((!(e.1 == key)) = true) from by simp [h]]
      simp only [List.filter]
      rw [show ((e.1 == key) = false) from by simp [h]]
      exact ih

theorem throttleTraceKey_invariant (key : String) (t0 W : Nat) :
    ∀ (calls : List (Nat × String)) (st : ThrottleState),
      (∀ e ∈ st.globalUpdateQueue, e.1 = key →
          e.2.1 = mapGetD st.lastUpdateTime key) →
      ((st.globalUpdateQueue.filter (fun e => e.1 == key)).length ≤ 1) →
      (∀ c ∈ calls, t0 ≤ c.1 ∧ c.1 ≤ t0 + W) →
      (∀ e ∈ (throttleTraceKey key st calls).1.globalUpdateQueue, e.1 = key →
          e.2.1 = mapGetD (throttleTraceKey key st calls).1.lastUpdateTime key) ∧
      (((throttleTraceKey key st calls).1.globalUpdateQueue.filter
          (fun e => e.1 == key)).length ≤ 1) ∧
      ((throttleTraceKey key st calls).2 = 0 →
        mapGetD (throttleTraceKey key st calls).1.lastUpdateTime key =
          mapGetD st.lastUpdateTime key) ∧
      (1 ≤ (throttleTraceKey key st calls).2 →
        mapGetD st.lastUpdateTime key + (throttleTraceKey key st calls).2 * 500 ≤
          mapGetD (throttleTraceKey key st calls).1.lastUpdateTime key) ∧
      (1 ≤ (throttleTraceKey key st calls).2 →
        t0 + ((throttleTraceKey key st calls).2 - 1) * 500 ≤
          mapGetD (throttleTraceKey key st calls).1.lastUpdateTime key ∧
        mapGetD (throttleTraceKey key st calls).1.lastUpdateTime key ≤ t0 + W) ∧
      (∀ e ∈ (throttleTraceKey key st calls).1.globalUpdateQueue, e.1 = key →
        ((e.2.1, e.2.2) ∈ calls ∨ e ∈ st.globalUpdateQueue)) := by
  intro calls
  induction calls with
  | nil =>
    intro st hA hB _hbound
    refine ⟨hA, hB, fun _ => rfl, ?_, ?_, ?_⟩
    · intro h
      exact absurd h (by simp [throttleTraceKey])
    · intro h
      exact absurd h (by simp [throttleTraceKey])
    · intro e he _
      exact Or.inr he
  | cons c rest ih =>
    obtain ⟨t, txt⟩ := c
    intro st hA hB hbound
    have hbr : ∀ c ∈ rest, t0 ≤ c.1 ∧ c.1 ≤ t0 + W :=
      fun c hc => hbound c (List.mem_cons_of_mem _ hc)
    have hbt : t0 ≤ t ∧ t ≤ t0 + W := hbound (t, txt) (List.mem_cons_self _ _)
    have heq1 : (throttleTraceKey key st ((t, txt) :: rest)).1 =
        (throttleTraceKey key (updateMessageThrottled st key t txt) rest).1 := by
      simp [throttleTraceKey]
    by_cases hdrop : t - mapGetD st.lastUpdateTime key < UPDATE_THROTTLE_MS
    · -- the call is dropped: only the pending flag changes
      have hupd : updateMessageThrottled st key t txt =
          { st with pendingUpdates := setInsert st.pendingUpdates key } := by
        simp [updateMessageThrottled, hdrop]
      have heq2 : (throttleTraceKey key st ((t, txt) :: rest)).2 =
          (throttleTraceKey key (updateMessageThrottled st key t txt) rest).2 := by
        simp [throttleTraceKey, hdrop]
      have hAu : ∀ e ∈ (updateMessageThrottled st key t txt).globalUpdateQueue,
          e.1 = key →
          e.2.1 = mapGetD (updateMessageThrottled st key t txt).lastUpdateTime key := by
        rw [hupd]
        exact hA
      have hBu : ((updateMessageThrottled st key t txt).globalUpdateQueue.filter
          (fun e => e.1 == key)).length ≤ 1 := by
        rw [hupd]
        exact hB
      obtain ⟨iA, iB, iC, iD, iE, iF⟩ :=
        ih (updateMessageThrottled st key t txt) hAu hBu hbr
      have hsame : mapGetD (updateMessageThrottled st key t txt).lastUpdateTime key =
          mapGetD st.lastUpdateTime key := by
        rw [hupd]
      refine ⟨by rw [heq1]; exact iA, by rw [heq1]; exact iB, ?_, ?_,
        by rw [heq1, heq2]; exact iE, ?_⟩
      · rw [heq1, heq2]
        intro h
        rw [iC h, hsame]
      · rw [heq1, heq2]
        intro h
        have hle := iD h
        rw [hsame] at hle
        exact hle
      rw [heq1]
      intro e he hekey
      rcases iF e he hekey with h | h
      · exact Or.inl (List.mem_cons_of_mem _ h)
      · rw [hupd] at h
        exact Or.inr h
    · -- the call is queued: clock set, queue collapsed to this update
      have hgap : mapGetD st.lastUpdateTime key + 500 ≤ t := by
        simp only [UPDATE_THROTTLE_MS] at hdrop
        omega
      have hupd : updateMessageThrottled st key t txt =
          { lastUpdateTime := mapSet st.lastUpdateTime key t
            pendingUpdates := setErase st.pendingUpdates key
            globalUpdateQueue :=
              st.globalUpdateQueue.filter (fun e => !(e.1 == key)) ++
                [(key, t, txt)] } := by
        simp [updateMessageThrottled, hdrop]
      have heq2 : (throttleTraceKey key st ((t, txt) :: rest)).2 =
          1 + (throttleTraceKey key (updateMessageThrottled st key t txt) rest).2 := by
        simp [throttleTraceKey, hdrop]
      have hlast : mapGetD (updateMessageThrottled st key t txt).lastUpdateTime key
          = t := by
        rw [hupd]
        exact mapGetD_set_self _ _ _
      have hqueue : (updateMessageThrottled st key t txt).globalUpdateQueue =
          st.globalUpdateQueue.filter (fun e => !(e.1 == key)) ++ [(key, t, txt)] := by
        rw [hupd]
      have preA : ∀ e ∈ (updateMessageThrottled st key t txt).globalUpdateQueue,
          e.1 = key →
          e.2.1 = mapGetD (updateMessageThrottled st key t txt).lastUpdateTime key := by
        intro e he hekey
        rw [hqueue] at he
        rcases List.mem_append.mp he with h | h
        · have hpred := List.of_mem_filter h
          simp only [Bool.not_eq_true', beq_eq_false_iff_ne, ne_eq] at hpred
          exact absurd hekey hpred
        · simp only [List.mem_singleton] at h
          subst h
          rw [hlast]
      have preB : ((updateMessageThrottled st key t txt).globalUpdateQueue.filter
          (fun e => e.1 == key)).length ≤ 1 := by
        rw [hqueue, List.filter_append, filter_key_of_filter_not]
        simp [List.filter]
      obtain ⟨iA, iB, iC, iD, iE, iF⟩ :=
        ih (updateMessageThrottled st key t txt) preA preB hbr
      refine ⟨by rw [heq1]; exact iA, by rw [heq1]; exact iB, ?_, ?_, ?_, ?_⟩
      · rw [heq2]
        intro h
        exact absurd h (by omega)
      · rw [heq1, heq2]
        intro _
        by_cases hn :
            (throttleTraceKey key (updateMessageThrottled st key t txt) rest).2 = 0
        · have hfin := iC hn
          rw [hlast] at hfin
          rw [hn, hfin]
          omega
        · have h1 :
              1 ≤ (throttleTraceKey key (updateMessageThrottled st key t txt) rest).2 := by
            omega
          have hd := iD h1
          rw [hlast] at hd
          omega
      · rw [heq1, heq2]
        intro _
        by_cases hn :
            (throttleTraceKey key (updateMessageThrottled st key t txt) rest).2 = 0
        · have hfin := iC hn
          rw [hlast] at hfin
          rw [hn, hfin]
          constructor
          · omega
          · omega
        · have h1 :
              1 ≤ (throttleTraceKey key (updateMessageThrottled st key t txt) rest).2 := by
            omega
          have hd := iD h1
          have hup := iE h1
          rw [hlast] at hd
          constructor
          · omega
          · exact hup.2
      · rw [heq1]
        intro e he hekey
        rcases iF e he hekey with h | h
        · exact Or.inl (List.mem_cons_of_mem _ h)
        · rw [hqueue] at h
          rcases List.mem_append.mp h with h2 | h2
          · have hpred := List.of_mem_filter h2
            simp only [Bool.not_eq_true', beq_eq_false_iff_ne, ne_eq] at hpred
            exact absurd hekey hpred
          · simp only [List.mem_singleton] at h2
            subst h2
            exact Or.inl (List.mem_cons_self _ _)

/-- Claim C6: for any sequence of status-update calls for one message key
whose times all lie in a window [t0, t0 + W], at most W/500 + 1 of them are
actually queued as edits (each queued entry is one chat.update call; the
bound implies the claimed ceil(W/500) + 1), and the queue never retains a
stale update for the key: at most one entry for the key is queued, it is the
most recently queued one (its queue time equals the key's last-update
clock), and it is one of the submitted updates. -/
theorem updateMessageThrottled_collapse (key : String) (t0 W : Nat)
    (calls : List (Nat × String))
    (hbound : ∀ c ∈ calls, t0 ≤ c.1 ∧ c.1 ≤ t0 + W) :
    (throttleTraceKey key initialThrottleState calls).2 ≤ W / 500 + 1 ∧
    (((throttleTraceKey key initialThrottleState calls).1.globalUpdateQueue.filter
      (fun e => e.1 == key)).length ≤ 1) ∧
    (∀ e ∈ (throttleTraceKey key initialThrottleState calls).1.globalUpdateQueue,
      e.1 = key →
        e.2.1 = mapGetD
          (throttleTraceKey key initialThrottleState calls).1.lastUpdateTime key ∧
        (e.2.1, e.2.2) ∈ calls) := by
  obtain ⟨iA, iB, _iC, _iD, iE, iF⟩ :=
    throttleTraceKey_invariant key t0 W calls initialThrottleState
      (by intro e he; cases he) (by simp [initialThrottleState]) hbound
  refine ⟨?_, iB, ?_⟩
  · by_cases hn : (throttleTraceKey key initialThrottleState calls).2 = 0
    · omega
    · have h1 : 1 ≤ (throttleTraceKey key initialThrottleState calls).2 := by omega
      obtain ⟨hlo, hhi⟩ := iE h1
      have hmul : ((throttleTraceKey key initialThrottleState calls).2 - 1) * 500 ≤ W := by
        omega
      have hdiv : (throttleTraceKey key initialThrottleState calls).2 - 1 ≤ W / 500 :=
        (Nat.le_div_iff_mul_le (by norm_num)).mpr hmul
      omega
  · intro e he hekey
    refine ⟨iA e he hekey, ?_⟩
    rcases iF e he hekey with h | h
    · exact h
    · simp [initialThrottleState] at h

/-- Witness for the C6 theorem on a concrete burst of three updates within a
600ms window. -/
theorem updateMessageThrottled_collapse_witness :
    (throttleTraceKey "C1:171.001" initialThrottleState
      [(1000, "a"), (1100, "b"), (1600, "c")]).2 ≤ 600 / 500 + 1 ∧
    (((throttleTraceKey "C1:171.001" initialThrottleState
      [(1000, "a"), (1100, "b"), (1600, "c")]).1.globalUpdateQueue.filter
      (fun e => e.1 == "C1:171.001")).length ≤ 1) ∧
    (∀ e ∈ (throttleTraceKey "C1:171.001" initialThrottleState
        [(1000, "a"), (1100, "b"), (1600, "c")]).1.globalUpdateQueue,
      e.1 = "C1:171.001" →
        e.2.1 = mapGetD
          (throttleTraceKey "C1:171.001" initialThrottleState
            [(1000, "a"), (1100, "b"), (1600, "c")]).1.lastUpdateTime "C1:171.001" ∧
        (e.2.1, e.2.2) ∈ [(1000, "a"), (1100, "b"), (1600, "c")]) :=
  updateMessageThrottled_collapse "C1:171.001" 1000 600
    [(1000, "a"), (1100, "b"), (1600, "c")] (by decide)

/-! ## Progress event translator (src/agents/opencode/client.ts lines
242-468).  The duck-typed event payloads are embedded as JSON values. -/

/-- A JavaScript/JSON value as seen by the duck-typed event handlers. -/
inductive JValue where
  | jnull
  | jbool (b : Bool)
  | jnum (n : Int)
  | jstr (s : String)
  | jarr (elems : List JValue)
  | jobj (fields : List (String × JValue))

/-- Property access `v[key]` on an object; anything else has no named
properties here. -/
def getField : JValue → String → Option JValue
  | .jobj fields, key => (fields.find? (fun f => f.1 == key)).map (fun f => f.2)
  | _, _ => none

/-- `typeof v[key] === "string" ? v[key] : undefined`. -/
def getStr (v : JValue) (key : String) : Option String :=
  match getField v key with
  | some (.jstr s) => some s
  | _ => none

/-- `typeof v[key] === "number" ? v[key] : undefined`. -/
def getNum (v : JValue) (key : String) : Option Int :=
  match getField v key with
  | some (.jnum n) => some n
  | _ => none

/-- JavaScript truthiness of a value. -/
def jsTruthy : JValue → Bool
  | .jnull => false
  | .jbool b => b
  | .jnum n => !(n == 0)
  | .jstr s => !(s == "")
  | .jarr _ => true
  | .jobj _ => true

/-- `Math.ceil(a / b)` for integers with positive b. -/
def jsCeilDiv (a b : Int) : Int := -(Int.fdiv (-a) b)

/-- ProgressEvent from src/agents/opencode/client.ts (lines 242-248). -/
structure ProgressEvent where
  directory : Option String
  payload : Option JValue

/-- formatProgressStatus (lines 250-252): the identity. -/
def formatProgressStatus (status : String) : String := status

/-- The switch of statusFromSessionStatus over the status object's type
field (src/agents/opencode/client.ts, lines 262-277). -/
def statusFromSessionStatusData (now : Int) (data : JValue) : String :=
  match getStr data "type" with
  | some "busy" => "Working"
  | some "retry" =>
    let base :=
      match getStr data "message" with
      | some m => if m = "" then "Retrying" else "Retrying: " ++ m
      | none => "Retrying"
    match getNum data "next" with
    | some next =>
      let seconds := max 0 (jsCeilDiv (next - now) 1000)
      base ++ " in " ++ toString seconds ++ "s"
    | none => base
  | some "idle" => "Waiting"
  | _ => "Working"

/-- statusFromSessionStatus from src/agents/opencode/client.ts (lines
254-278), with the ambient `Date.now()` made an explicit `now` argument.
A missing or non-object status renders as "Working".  The message field is
typed string in the source; a non-string message is treated as absent. -/
def statusFromSessionStatus (now : Int) (status : Option JValue) : String :=
  match status with
  | some (JValue.jobj fields) => statusFromSessionStatusData now (JValue.jobj fields)
  | some (JValue.jarr elems) => statusFromSessionStatusData now (JValue.jarr elems)
  | _ => "Working"

/-- formatToolDetail from src/agents/opencode/client.ts (lines 280-319). -/
def formatToolDetail (part : JValue) : Option String :=
  let input :=
    (((getField part "state").bind (fun st => getField st "input")).getD
      (JValue.jobj []))
  let path := getStr input "path"
  let pattern := getStr input "pattern"
  let filePath := getStr input "filePath"
  let command := getStr input "command"
  let url := getStr input "url"
  match getStr part "tool" with
  | some "glob" =>
    match pattern with
    | some p =>
      some ("Glob \"" ++ p ++ "\"" ++
        (match path with | some pa => " in " ++ pa | none => ""))
    | none => some "Glob"
  | some "grep" =>
    match pattern with
    | some p =>
      some ("Grep \"" ++ p ++ "\"" ++
        (match path with | some pa => " in " ++ pa | none => ""))
    | none => some "Grep"
  | some "read" =>
    match filePath with
    | some f => some ("Read " ++ f)
    | none => some "Read"
  | some "list" =>
    match path with
    | some pa => some ("List " ++ pa)
    | none => some "List"
  | some "webfetch" =>
    match url with
    | some u => some ("WebFetch " ++ u)
    | none => some "WebFetch"
  | some "bash" =>
    match command with
    | some cmd => some ("$ " ++ cmd)
    | none => some "Shell"
  | some "shell" =>
    match command with
    | some cmd => some ("$ " ++ cmd)
    | none => some "Shell"
  | some "command" =>
    match command with
    | some cmd => some ("$ " ++ cmd)
    | none => some "Shell"
  | some "write" =>
    match filePath with
    | some f => some ("Write " ++ f)
    | none => some "Write"
  | some "edit" =>
    match filePath with
    | some f => some ("Edit " ++ f)
    | none => some "Edit"
  | _ => none

/-- The tool-part branch of statusFromPart (lines 355-384). -/
def statusFromToolPart (part : JValue) : String :=
  let toolTitle :=
    match (getField part "state").bind (fun st => getStr st "title") with
    | some s => some s
    | none => getStr part "tool"
  let detail := formatToolDetail part
  let toolLabel :=
    match toolTitle with
    | some s => if s = "" then "" else " " ++ s
    | none => ""
  let toolStatus := (getField part "state").bind (fun st => getStr st "status")
  let statusWord :=
    if toolStatus = some "running" then "Running tool"
    else if toolStatus = some "pending" then "Preparing tool"
    else if toolStatus = some "completed" then "Finished tool"
    else if toolStatus = some "error" then "Tool failed"
    else "Running tool"
  match detail with
  | some d => if d = "" then statusWord ++ toolLabel else statusWord ++ ": " ++ d
  | none => statusWord ++ toolLabel

/-- statusFromPart from src/agents/opencode/client.ts (lines 321-397). -/
def statusFromPart (part : JValue) : Option String :=
  match getStr part "type" with
  | none => none
  | some t =>
    if t = "reasoning" then some "Thinking"
    else if t = "text" then some "Drafting response"
    else if t = "step-start" then some "Starting step"
    else if t = "step-finish" then some "Finishing step"
    else if t = "compaction" then some "Compacting context"
    else if t = "snapshot" then some "Capturing snapshot"
    else if t = "patch" then some "Applying changes"
    else if t = "retry" then some "Retrying"
    else if t = "agent" then
      some (match getStr part "name" with
        | some n => if n = "" then "Switching agent" else "Switching agent: " ++ n
        | none => "Switching agent")
    else if t = "subtask" then
      some (match
          (match getStr part "description" with
            | some d => some d
            | none => getStr part "prompt") with
        | some d => if d = "" then "Running subtask" else "Running subtask: " ++ d
        | none => "Running subtask")
    else if t = "tool" then some (statusFromToolPart part)
    else if t = "file" then
      some (match
          (match getStr part "filename" with
            | some f => some f
            | none => getStr part "url") with
        | some f => if f = "" then "Preparing file" else "Preparing file: " ++ f
        | none => "Preparing file")
    else none

/-- The generic session id read of statusFromEvent (lines 404-409):
properties.sessionID if it is a string, else properties.sessionId if it is a
string. -/
def eventSessionIdOf (properties : Option JValue) : Option String :=
  match properties with
  | some props =>
    match getStr props "sessionID" with
    | some s => some s
    | none => getStr props "sessionId"
  | none => none

/-- The final switch of statusFromEvent (lines 445-465). -/
def statusFromEventFallThrough (payload : JValue) : Option String :=
  match getStr payload "type" with
  | some "command.executed" => some (formatProgressStatus "Command executed")
  | some "session.updated" => some (formatProgressStatus "Updating session")
  | some "session.summary" =>
    some (formatProgressStatus
      (match (getField payload "properties").bind (fun props => getStr props "title") with
        | some t => if t = "" then "Summarizing session" else "Summarizing: " ++ t
        | none => "Summarizing session"))
  | some "message.updated" => some (formatProgressStatus "Updating message")
  | some "question" => some (formatProgressStatus "Asking question")
  | some "question.asked" => some (formatProgressStatus "Awaiting response")
  | some "scheduler.run" => some (formatProgressStatus "Running maintenance")
  | some "snapshot.cleanup" => some (formatProgressStatus "Running maintenance")
  | _ => none

/-- statusFromEvent from src/agents/opencode/client.ts (lines 399-468), with
the ambient `Date.now()` of the retry countdown made an explicit `now`
argument.  All JavaScript truthiness tests (`!payload?.type`, `!part`,
`eventSessionId && ...`, `!properties?.sessionID`) are rendered through
`jsTruthy` and empty-string checks. -/
def statusFromEvent (now : Int) (event : ProgressEvent) (sessionId : String) :
    Option String :=
  match event.payload with
  | none => none
  | some payload =>
    match getStr payload "type" with
    | none => none
    | some ptype =>
      if ptype = "" then none
      else if ptype = "session.status" then
        match getField payload "properties" with
        | some props =>
          if getStr props "sessionID" = some sessionId then
            some (formatProgressStatus
              (statusFromSessionStatus now (getField props "status")))
          else none
        | none => none
      else if ptype = "session.error" then
        match getField payload "properties" with
        | some props =>
          match getField props "sessionID" with
          | some v =>
            if jsTruthy v then
              match v with
              | JValue.jstr s => if s = sessionId then some "Error" else none
              | _ => none
            else some "Error"
          | none => some "Error"
        | none => some "Error"
      else if ptype = "message.part.updated" then
        match (getField payload "properties").bind (fun props => getField props "part") with
        | some part =>
          if jsTruthy part then
            if getStr part "sessionID" = some sessionId then
              match statusFromPart part with
              | some status =>
                if status = "" then none else some (formatProgressStatus status)
              | none => none
            else none
          else none
        | none => none
      else
        match eventSessionIdOf (getField payload "properties") with
        | some s =>
          if s ≠ "" ∧ s ≠ sessionId then none
          else statusFromEventFallThrough payload
        | none => statusFromEventFallThrough payload

/-- The session id a raw event payload embeds, as statusFromEvent itself
reads it in each branch (an id the code treats as absent under JavaScript
truthiness, i.e. the empty string in the session.error and fall-through
branches, counts as no id). -/
def embeddedSessionId (payload : JValue) : Option String :=
  match getStr payload "type" with
  | none => none
  | some ptype =>
    if ptype = "" then none
    else if ptype = "session.status" then
      (getField payload "properties").bind (fun props => getStr props "sessionID")
    else if ptype = "session.error" then
      match (getField payload "properties").bind (fun props => getField props "sessionID") with
      | some (JValue.jstr s) => if s = "" then none else some s
      | _ => none
    else if ptype = "message.part.updated" then
      ((getField payload "properties").bind (fun props => getField props "part")).bind
        (fun part => getStr part "sessionID")
    else
      match eventSessionIdOf (getField payload "properties") with
      | some s => if s = "" then none else some s
      | none => none

/-- The payload type tag of an event, as statusFromEvent reads it. -/
def payloadTypeOf (event : ProgressEvent) : Option String :=
  event.payload.bind (fun payload => getStr payload "type")

/-- The embedded session id of an event, as statusFromEvent reads it. -/
def eventEmbeddedSessionId (event : ProgressEvent) : Option String :=
  event.payload.bind embeddedSessionId

/-- A session.status retry event for session s1 whose countdown field makes
the rendered label depend on the wall clock. -/
def retryEvent : ProgressEvent :=
  ⟨none, some (JValue.jobj
    [("type", JValue.jstr "session.status"),
      ("properties", JValue.jobj
        [("sessionID", JValue.jstr "s1"),
          ("status", JValue.jobj
            [("type", JValue.jstr "retry"),
              ("next", JValue.jnum 10000)])])])⟩

/-- Claim C5, counterexample: statusFromEvent is not deterministic across
calls for a fixed event and fixed target session id, because the retry
countdown embeds the current wall-clock time: the same retry event rendered
at clock 0 and at clock 5000 yields two different strings. -/
theorem statusFromEvent_clock_cex :
    statusFromEvent 0 retryEvent "s1" = some "Retrying in 10s" ∧
    statusFromEvent 5000 retryEvent "s1" = some "Retrying in 5s" ∧
    statusFromEvent 0 retryEvent "s1" ≠ statusFromEvent 5000 retryEvent "s1" := by
  refine ⟨?_, ?_, ?_⟩ <;> decide

theorem jsTruthy_of_getField {v : JValue} {k : String} {w : JValue}
    (h : getField v k = some w) : jsTruthy v = true := by
  cases v <;> simp [getField, jsTruthy] at h ⊢

theorem getField_of_getStr {v : JValue} {k : String} {s : String}
    (h : getStr v k = some s) : getField v k = some (JValue.jstr s) := by
  unfold getStr at h
  cases hf : getField v k with
  | none => rw [hf] at h; cases h
  | some w =>
    rw [hf] at h
    cases w <;> simp_all

/-- Claim C5 (amended): statusFromEvent depends only on the event, the
target session id and the current clock reading; it is clock-independent
(hence call-to-call deterministic) for every event whose payload type is not
session.status (only the retry countdown of a session.status event reads the
clock); and it returns null for every event whose embedded session id
differs from the target session id. -/
theorem statusFromEvent_deterministic_and_filtered :
    (∀ (now now' : Int) (event : ProgressEvent) (sessionId : String),
      payloadTypeOf event ≠ some "session.status" →
      statusFromEvent now event sessionId = statusFromEvent now' event sessionId) ∧
    (∀ (now : Int) (event : ProgressEvent) (sessionId s : String),
      eventEmbeddedSessionId event = some s → s ≠ sessionId →
      statusFromEvent now event sessionId = none) := by
  constructor
  · intro now now' event sessionId hne
    obtain ⟨dir, pl⟩ := event
    cases pl with
    | none => rfl
    | some payload =>
      simp only [statusFromEvent]
      cases hty : getStr payload "type" with
      | none => rfl
      | some ptype =>
        have hne2 : ptype ≠ "session.status" := by
          intro h
          exact hne (by simp [payloadTypeOf, hty, h])
        by_cases h0 : ptype = ""
        · simp [h0]
        · simp only [if_neg h0, if_neg hne2]
  · intro now event sessionId s hemb hne
    obtain ⟨dir, pl⟩ := event
    cases pl with
    | none => cases hemb
    | some payload =>
      replace hemb : embeddedSessionId payload = some s := hemb
      simp only [statusFromEvent]
      unfold embeddedSessionId at hemb
      cases hty : getStr payload "type" with
      | none =>
        simp only [hty] at hemb
        cases hemb
      | some ptype =>
        simp only [hty] at hemb
        dsimp only
        by_cases h0 : ptype = ""
        · rw [if_pos h0] at hemb
          cases hemb
        · rw [if_neg h0] at hemb
          rw [if_neg h0]
          by_cases hss : ptype = "session.status"
          · rw [if_pos hss] at hemb
            rw [if_pos hss]
            rcases Option.bind_eq_some.mp hemb with ⟨props, hprops, hsid⟩
            rw [hprops]
            dsimp only
            rw [hsid]
            rw [if_neg (by intro h; exact hne (Option.some.inj h))]
          · rw [if_neg hss] at hemb
            rw [if_neg hss]
            by_cases hse : ptype = "session.error"
            · rw [if_pos hse] at hemb
              rw [if_pos hse]
              cases hfield : (getField payload "properties").bind
                  (fun props => getField props "sessionID") with
              | none =>
                rw [hfield] at hemb
                cases hemb
              | some v =>
                rw [hfield] at hemb
                rcases Option.bind_eq_some.mp hfield with ⟨props, hprops, hsid⟩
                rw [hprops]
                dsimp only
                rw [hsid]
                cases v with
                | jstr s2 =>
                  dsimp only at hemb ⊢
                  by_cases hs2 : s2 = ""
                  · rw [if_pos hs2] at hemb
                    cases hemb
                  · rw [if_neg hs2] at hemb
                    have hs2s : s2 = s := Option.some.inj hemb
                    subst hs2s
                    have htr : jsTruthy (JValue.jstr s2) = true := by
                      simp [jsTruthy, hs2]
                    rw [if_pos htr]
                    rw [if_neg hne]
                | jnull => dsimp only at hemb; cases hemb
                | jbool b => dsimp only at hemb; cases hemb
                | jnum n => dsimp only at hemb; cases hemb
                | jarr elems => dsimp only at hemb; cases hemb
                | jobj fields => dsimp only at hemb; cases hemb
            · rw [if_neg hse] at hemb
              rw [if_neg hse]
              by_cases hmp : ptype = "message.part.updated"
              · rw [if_pos hmp] at hemb
                rw [if_pos hmp]
                rcases Option.bind_eq_some.mp hemb with ⟨part, hpart, hsid⟩
                rw [hpart]
                dsimp only
                rw [if_pos (jsTruthy_of_getField (getField_of_getStr hsid))]
                rw [hsid]
                rw [if_neg (by intro h; exact hne (Option.some.inj h))]
              · rw [if_neg hmp] at hemb
                rw [if_neg hmp]
                cases hev : eventSessionIdOf (getField payload "properties") with
                | none =>
                  rw [hev] at hemb
                  cases hemb
                | some s2 =>
                  rw [hev] at hemb
                  dsimp only at hemb ⊢
                  by_cases hs2 : s2 = ""
                  · rw [if_pos hs2] at hemb
                    cases hemb
                  · rw [if_neg hs2] at hemb
                    have hs2s : s2 = s := Option.some.inj hemb
                    subst hs2s
                    rw [if_pos ⟨hs2, hne⟩]

/-- A command.executed event carrying session id s2. -/
def cmdEvent : ProgressEvent :=
  ⟨none, some (JValue.jobj
    [("type", JValue.jstr "command.executed"),
      ("properties", JValue.jobj [("sessionID", JValue.jstr "s2")])])⟩

/-- Witness for the amended C5 theorem: a non-session.status event renders
identically at two clock readings, and an event embedding session id s2 is
null for target s1. -/
theorem statusFromEvent_deterministic_and_filtered_witness :
    statusFromEvent 0 cmdEvent "s1" = statusFromEvent 7 cmdEvent "s1" ∧
    statusFromEvent 0 cmdEvent "s1" = none :=
  ⟨statusFromEvent_deterministic_and_filtered.1 0 7 cmdEvent "s1" (by decide),
    statusFromEvent_deterministic_and_filtered.2 0 cmdEvent "s1" "s2"
      (by decide) (by decide)⟩
